import Mathlib

/-!
Shallow embedding of the tracerr2 Go library (package tracerr) in Lean 4.

The repository contains two variants of the package:
* `tracerr2.go` — the chain-aware variant: `Error` carries an optional
  `cause`, `Wrap`/`Wrapf` exist, `Fprint` walks the cause chain printing
  "Caused by:" separators, and `newError` stops the stack walk at the
  first function whose (base) name starts with "runtime.".
* `unnamed/part_001` — the legacy single-node variant: `Error` has no
  cause, `newError` keeps every resolvable frame (no "runtime." stop),
  and `Fprint` prints a caret-underline row beneath the failing line.

Host-runtime facilities are modelled as inputs:
* the stack walker (`runtime.Caller` / `runtime.FuncForPC`) becomes a
  list of raw frames, one entry per stack level starting at the `skip`
  level, where `fn = none` models `runtime.FuncForPC` returning nil;
* the file system becomes a function from path to `Option (List String)`
  (`none` models `os.Open` failure; a file is its list of lines, which
  by construction of `bufio.Scanner` contain no newline character);
* the highlighting engine (`quick.Highlight`) becomes a function
  `String → Option String`, `none` modelling engine failure;
* an `io.Writer` becomes the list of strings written to it, one list
  element per `fmt.Fprintf` call, in order.

`fmt.Sprintf format args` (used by `Errorf`/`Wrapf`) is modelled by its
resulting string, passed in directly.
-/

namespace Tracerr

/-- ANSI color and formatting constants (tracerr2.go lines 20-27). -/
def colorRed : String := "\x1b[31m"

/-- ANSI yellow. -/
def colorYellow : String := "\x1b[33m"

/-- ANSI reset. -/
def colorReset : String := "\x1b[0m"

/-- ANSI gray. -/
def colorGray : String := "\x1b[90m"

/-- ANSI bold gray. -/
def colorBoldGray : String := "\x1b[1;90m"

/-- ANSI italic. -/
def formatItalic : String := "\x1b[3m"

/-- ANSI helper `gray` (tracerr2.go line 240). -/
def gray (s : String) : String := colorGray ++ s ++ colorReset

/-- ANSI helper `boldGray` (tracerr2.go line 241). -/
def boldGray (s : String) : String := colorBoldGray ++ s ++ colorReset

/-- ANSI helper `red` (tracerr2.go line 242). -/
def red (s : String) : String := colorRed ++ s ++ colorReset

/-- ANSI helper `yellow` (tracerr2.go line 243). -/
def yellow (s : String) : String := colorYellow ++ s ++ colorReset

/-- Frame represents a single frame in a stack trace (tracerr2.go lines 30-34). -/
structure Frame where
  File : String
  Line : Int
  Function : String
deriving DecidableEq, Repr

/-- RawFrame is one result of the stack walker: what `runtime.Caller i`
and `runtime.FuncForPC` yield at one level. `fn = none` models
`runtime.FuncForPC` returning nil. -/
structure RawFrame where
  file : String
  line : Int
  fn : Option String
deriving DecidableEq, Repr

/-- Model of Go `strings.HasPrefix s p` (byte prefix test, modelled on
characters). -/
def strStartsWith (s p : String) : Bool := p.data.isPrefixOf s.data

/-- Drop trailing path separators, the first step of Go `filepath.Base`. -/
def dropTrailingSlashes (cs : List Char) : List Char :=
  (cs.reverse.dropWhile (· = '/')).reverse

/-- Take the suffix after the last path separator, the last step of Go
`filepath.Base`. -/
def afterLastSlash (cs : List Char) : List Char :=
  (cs.reverse.takeWhile (· ≠ '/')).reverse

/-- Model of Go `filepath.Base` on a Unix path: "" maps to ".", trailing
slashes are stripped, the component after the last slash is returned,
and an all-slash path maps to "/". -/
def goFilepathBase (path : String) : String :=
  if path = "" then "."
  else
    let cs := afterLastSlash (dropTrailingSlashes path.data)
    if cs = [] then "/" else String.mk cs

/-- Function-name resolution in `newError` (tracerr2.go lines 86-92):
`filepath.Base (fn.Name())` when the symbol resolves, the sentinel
`"<unknown>"` otherwise. -/
def resolveName (r : RawFrame) : String :=
  match r.fn with
  | some n => goFilepathBase n
  | none => "<unknown>"

/-- RawFrame translated to a captured Frame. -/
def toFrame (r : RawFrame) : Frame :=
  { File := r.file, Line := r.line, Function := resolveName r }

/-- Stack-walk loop of `newError` in tracerr2.go (lines 79-102): walks
outward, stops when the walker is exhausted or the resolved base name
starts with "runtime." (such a frame is not appended). -/
def captureFrames : List RawFrame → List Frame
  | [] => []
  | r :: rest =>
    let funcName := resolveName r
    if strStartsWith funcName "runtime." then []
    else { File := r.file, Line := r.line, Function := funcName } :: captureFrames rest

/-- Stack-walk loop of `newError` in unnamed/part_001 (lines 55-74):
walks outward until the walker is exhausted, appending every frame;
there is no "runtime." stop in this variant. -/
def captureFramesLegacy : List RawFrame → List Frame
  | [] => []
  | r :: rest =>
    { File := r.file, Line := r.line, Function := resolveName r } :: captureFramesLegacy rest

/-- GoErr models a Go `error` value as seen by `Fprint` in tracerr2.go:
either a `*tracerr.Error` (message, frames, optional cause) or a foreign
error (its `Error()` string and what `errors.Unwrap` yields on it). -/
inductive GoErr where
  | tracerr (msg : String) (frames : List Frame) (cause : Option GoErr)
  | foreign (msg : String) (cause : Option GoErr)

/-- newError of tracerr2.go (lines 79-107): message plus captured
frames, no cause. The `skip` parameter is absorbed into the walker
output: `stack` is the walker's answer from level `skip` outward. -/
def newError (msg : String) (stack : List RawFrame) : GoErr :=
  .tracerr msg (captureFrames stack) none

/-- New of tracerr2.go (lines 45-47). -/
def New (msg : String) (stack : List RawFrame) : GoErr :=
  newError msg stack

/-- Errorf of tracerr2.go (lines 51-53); `fmt.Sprintf format args` is
modelled by the resulting string `formatted`. -/
def Errorf (formatted : String) (stack : List RawFrame) : GoErr :=
  newError formatted stack

/-- Wrap of tracerr2.go (lines 57-64): nil cause returns nil, otherwise
a new Error node is built by `newError` and its cause set to `err`. -/
def Wrap (err : Option GoErr) (msg : String) (stack : List RawFrame) : Option GoErr :=
  match err with
  | none => none
  | some e =>
    match newError msg stack with
    | .tracerr m fs _ => some (.tracerr m fs (some e))
    | other => some other

/-- Wrapf of tracerr2.go (lines 68-75); `fmt.Sprintf format args` is
modelled by the resulting string `formatted`. -/
def Wrapf (err : Option GoErr) (formatted : String) (stack : List RawFrame) : Option GoErr :=
  match err with
  | none => none
  | some e =>
    match newError formatted stack with
    | .tracerr m fs _ => some (.tracerr m fs (some e))
    | other => some other

/-- Error() of tracerr2.go (lines 110-115): own message, prefixed to
`": "` and the cause's `Error()` when a cause exists. A foreign error
contributes the string its own `Error()` returns. -/
def goErrorStr : GoErr → String
  | .tracerr msg _ none => msg
  | .tracerr msg _ (some c) => msg ++ ": " ++ goErrorStr c
  | .foreign msg _ => msg

/-- Unwrap of tracerr2.go (lines 118-120), and `errors.Unwrap` on a
foreign error. -/
def goUnwrap : GoErr → Option GoErr
  | .tracerr _ _ cause => cause
  | .foreign _ cause => cause

/-- Number of nodes in the cause chain starting at an error. -/
def chainLength : GoErr → Nat
  | .tracerr _ _ none => 1
  | .tracerr _ _ (some c) => 1 + chainLength c
  | .foreign _ none => 1
  | .foreign _ (some c) => 1 + chainLength c

/-- The cause chain as a list, the error itself first. -/
def chainList : GoErr → List GoErr
  | e@(.tracerr _ _ none) => [e]
  | e@(.tracerr _ _ (some c)) => e :: chainList c
  | e@(.foreign _ none) => [e]
  | e@(.foreign _ (some c)) => e :: chainList c

/-- Scan loop of `readSourceContextLines` (tracerr2.go lines 215-225):
`currentLine` starts at 0 and is incremented before the range test;
a line is collected when its 1-based number lies in `[start, endL]`,
and the scan breaks once the current line number exceeds `endL`. -/
def scanLines (start endL : Int) (currentLine : Int) : List String → List String
  | [] => []
  | l :: rest =>
    (if start ≤ currentLine + 1 ∧ currentLine + 1 ≤ endL then [l] else []) ++
      (if endL < currentLine + 1 then []
       else scanLines start endL (currentLine + 1) rest)

/-- readSourceContextLines of tracerr2.go (lines 201-236) and of
unnamed/part_001 (lines 152-187), which are identical. The opened file
is modelled by `file : Option (List String)`; `none` models `os.Open`
failure (a scanner error mid-read, the remaining failure mode, is an
IO condition outside the embedding). -/
def readSourceContextLines (file : Option (List String)) (centerLine context : Int) :
    Except String (List String × Int) :=
  match file with
  | none => .error "open failed"
  | some fileLines =>
    let start := if centerLine - context < 1 then 1 else centerLine - context
    let lines := scanLines start (centerLine + context) 0 fileLines
    if lines = [] then .error "no lines found in range"
    else .ok (lines, start)

/-- Model of Go `strings.Join lines "\n"` (tracerr2.go line 170). -/
def joinLines : List String → String
  | [] => ""
  | [l] => l
  | l :: rest => l ++ "\n" ++ joinLines rest

/-- Character-level split on the newline character, the semantics of Go
`strings.Split s "\n"`. -/
def splitNl : List Char → List (List Char)
  | [] => [[]]
  | c :: rest =>
    if c = '\n' then [] :: splitNl rest
    else
      match splitNl rest with
      | h :: t => (c :: h) :: t
      | [] => [[c]]

/-- Model of Go `strings.Split s "\n"` (tracerr2.go line 176). -/
def goSplitLines (s : String) : List String :=
  (splitNl s.data).map String.mk

/-- Left padding with spaces to a minimum width, the behaviour of the
Go format verb `%*d` on the decimal rendering of an integer. -/
def padLeft (s : String) (w : Nat) : String :=
  String.mk (List.replicate (w - s.length) ' ') ++ s

/-- Text of the line-number gutter: `fmt.Sprintf "  %*d | " width num`
(tracerr2.go lines 190 and 192). -/
def gutterText (width : Nat) (lineNum : Int) : String :=
  "  " ++ padLeft (toString lineNum) width ++ " | "

/-- Frame header chunk: `fmt.Fprintf w "  at %s (%s)\n" function location`
with `location = gray (base file ++ ":" ++ line)` and
`function = yellow frame.Function` (tracerr2.go lines 160-162). -/
def frameHeader (frame : Frame) : String :=
  "  at " ++ yellow frame.Function ++ " (" ++
    gray (goFilepathBase frame.File ++ ":" ++ toString frame.Line) ++ ")\n"

/-- Placeholder chunk written when the source context cannot be read
(tracerr2.go line 166). -/
def placeholderChunk : String :=
  "    " ++ gray "Could not read source file" ++ "\n"

/-- One gutter-prefixed source line chunk:
`fmt.Fprintf w "%s%s\n" gutter hLine` where the gutter is bold gray on
the error line and gray otherwise (tracerr2.go lines 188-195). -/
def gutterChunk (width : Nat) (lineNum : Int) (isErrorLine : Bool) (h : String) : String :=
  (if isErrorLine then boldGray (gutterText width lineNum)
   else gray (gutterText width lineNum)) ++ h ++ "\n"

/-- Print loop over the highlighted lines (tracerr2.go lines 181-196):
index `i` runs over the highlighted lines; indices at or beyond the
count of unhighlighted lines are skipped (`continue`). -/
def gutterLoop (numLines : Nat) (startLine errIdx : Int) (width : Nat) :
    Nat → List String → List String
  | _, [] => []
  | i, h :: rest =>
    (if i < numLines then [gutterChunk width (startLine + i) ((i : Int) == errIdx) h]
     else []) ++ gutterLoop numLines startLine errIdx width (i + 1) rest

/-- printFrame of tracerr2.go (lines 159-197): header, then either the
placeholder (on read failure) or the gutter-prefixed source context,
highlighted when the engine succeeds and verbatim otherwise. -/
def printFrame (fs : String → Option (List String)) (hl : String → Option String)
    (frame : Frame) : List String :=
  match readSourceContextLines (fs frame.File) frame.Line 1 with
  | .error _ => [frameHeader frame, placeholderChunk]
  | .ok (lines, startLine) =>
    let codeBlock := joinLines lines
    let highlighted :=
      match hl codeBlock with
      | some h => h
      | none => codeBlock
    let highlightedLines := goSplitLines highlighted
    let lineNumWidth := (toString (startLine + (lines.length : Int) - 1)).length
    let errorLineIndex := frame.Line - startLine
    frameHeader frame :: gutterLoop lines.length startLine errorLineIndex lineNumWidth 0 highlightedLines

/-- Separator chunk between chain nodes:
`fmt.Fprintf w "\n%sCaused by: %s" formatItalic colorReset`
(tracerr2.go line 138). -/
def sepChunk : String := "\n" ++ formatItalic ++ "Caused by: " ++ colorReset

/-- Per-node output of the chain walk in Fprint (tracerr2.go lines
141-150): a tracerr node prints its own message in red and then its
frames; a foreign node prints only its `Error()` string in red. -/
def renderNode (fs : String → Option (List String)) (hl : String → Option String) :
    GoErr → List String
  | .tracerr msg frames _ => (red msg ++ "\n") :: (frames.map (printFrame fs hl)).flatten
  | .foreign msg cause => [red (goErrorStr (.foreign msg cause)) ++ "\n"]

/-- Chain walk of Fprint (tracerr2.go lines 129-156): every node after
the first is preceded by the "Caused by:" separator, and the walk
advances through `errors.Unwrap`. -/
def FprintAux (fs : String → Option (List String)) (hl : String → Option String) :
    GoErr → Bool → List String
  | e@(.tracerr _ _ cause), isFirst =>
    (if isFirst then [] else [sepChunk]) ++ renderNode fs hl e ++
      (match cause with
       | none => []
       | some c => FprintAux fs hl c false)
  | e@(.foreign _ cause), isFirst =>
    (if isFirst then [] else [sepChunk]) ++ renderNode fs hl e ++
      (match cause with
       | none => []
       | some c => FprintAux fs hl c false)

/-- Fprint of tracerr2.go: the chain walk started at the head with
`isFirst = true`. -/
def Fprint (fs : String → Option (List String)) (hl : String → Option String)
    (e : GoErr) : List String :=
  FprintAux fs hl e true

/-- Error of unnamed/part_001 (lines 36-39): message and frames, no
cause field in the legacy variant. -/
structure ErrorLegacy where
  Msg : String
  Frames : List Frame
deriving DecidableEq, Repr

/-- newError of unnamed/part_001 (lines 55-79): every resolvable frame
is kept. -/
def newErrorLegacy (msg : String) (stack : List RawFrame) : ErrorLegacy :=
  { Msg := msg, Frames := captureFramesLegacy stack }

/-- Error() of unnamed/part_001 (lines 82-84): the bare message. -/
def errorLegacyStr (e : ErrorLegacy) : String := e.Msg

/-- Caret-underline chunk of unnamed/part_001 (lines 140-144):
`fmt.Fprintf w "%s%s\n" caretGutter caretLine` with
`caretLine = red (strings.Repeat "^" (len lines[i]))`; Go `len` on a
string counts bytes, modelled by `String.utf8ByteSize`. -/
def caretChunk (width : Nat) (s : String) : String :=
  boldGray ("  " ++ String.mk (List.replicate width ' ') ++ " | ") ++
    red (String.mk (List.replicate s.utf8ByteSize '^')) ++ "\n"

/-- Print loop of the legacy variant (unnamed/part_001 lines 124-146):
like `gutterLoop`, but the error line is followed by the caret row built
from the unhighlighted line `lines[i]`. -/
def gutterLoopLegacy (lines : List String) (startLine errIdx : Int) (width : Nat) :
    Nat → List String → List String
  | _, [] => []
  | i, h :: rest =>
    (if hi : i < lines.length then
      gutterChunk width (startLine + i) ((i : Int) == errIdx) h ::
        (if (i : Int) == errIdx then [caretChunk width (lines.get ⟨i, hi⟩)] else [])
     else []) ++ gutterLoopLegacy lines startLine errIdx width (i + 1) rest

/-- Per-frame body of the legacy Fprint loop (unnamed/part_001 lines
95-146, the body of `for _, frame := range e.Frames`). -/
def printFrameLegacy (fs : String → Option (List String)) (hl : String → Option String)
    (frame : Frame) : List String :=
  match readSourceContextLines (fs frame.File) frame.Line 1 with
  | .error _ => [frameHeader frame, placeholderChunk]
  | .ok (lines, startLine) =>
    let codeBlock := joinLines lines
    let highlighted :=
      match hl codeBlock with
      | some h => h
      | none => codeBlock
    let highlightedLines := goSplitLines highlighted
    let lineNumWidth := (toString (startLine + (lines.length : Int) - 1)).length
    let errorLineIndex := frame.Line - startLine
    frameHeader frame ::
      gutterLoopLegacy lines startLine errorLineIndex lineNumWidth 0 highlightedLines

/-- Fprint of unnamed/part_001 (lines 93-148): message chunk
(`fmt.Fprintf w "%s%s%s\n" (red e.Msg) colorReset ""`) followed by each
frame's output; no chain walk in the legacy variant. -/
def FprintLegacy (fs : String → Option (List String)) (hl : String → Option String)
    (e : ErrorLegacy) : List String :=
  (red e.Msg ++ colorReset ++ "\n") :: (e.Frames.map (printFrameLegacy fs hl)).flatten

/-- State machine removing ANSI escape sequences of the form
`ESC [ ... m` from a character stream: in the `true` state characters up
to and including the next `m` are dropped; in the `false` state an
`ESC [` pair enters the `true` state and any other character is kept. -/
def stripAnsiAux : Bool → List Char → List Char
  | _, [] => []
  | true, c :: rest => if c = 'm' then stripAnsiAux false rest else stripAnsiAux true rest
  | false, '\x1b' :: '[' :: r2 => stripAnsiAux true r2
  | false, c :: rest => c :: stripAnsiAux false rest

/-- Non-color-code characters of a string: the string with its ANSI
color sequences removed. -/
def stripAnsiStr (s : String) : String :=
  String.mk (stripAnsiAux false s.data)

/-- Strings consisting of complete ANSI-colored text: stripping
distributes over any continuation. Color-code output of a well-behaved
highlighting engine satisfies this. -/
def ansiClosed (s : String) : Prop :=
  ∀ t, stripAnsiAux false (s.data ++ t) = stripAnsiAux false s.data ++ stripAnsiAux false t

/-- Demonstration file of the spec's reader examples: 20 lines, the
i-th line rendering its own line number. -/
def demoFile : List String :=
  (List.range 20).map (fun i => toString (i + 1))

/-- Frames field of a GoErr node (empty on a foreign error, which has
no frames). -/
def errFrames : GoErr → List Frame
  | .tracerr _ frames _ => frames
  | .foreign _ _ => []

/-- Chunk lists joined with a separator chunk between consecutive
elements; the shape of the chain-walk output. -/
def sepJoin (sep : String) : List (List String) → List String
  | [] => []
  | [x] => x
  | x :: rest => x ++ sep :: sepJoin sep rest

/-- Concrete file system fixture: one three-line file at "/app/m.go". -/
def fsDemo : String → Option (List String) :=
  fun p => if p = "/app/m.go" then some ["aa", "bb", "cc"] else none

/-- Concrete highlighting-engine fixture that always fails. -/
def hlNone : String → Option String := fun _ => none

/-- Concrete highlighting-engine fixture whose output splits into more
lines than any input block of the demo file system. -/
def hlMany : String → Option String := fun _ => some "a\nb\nc\nd\ne"

/-- Concrete highlighting-engine fixture that colors the middle line of
the demo block and leaves the rest verbatim. -/
def hlColor : String → Option String :=
  fun _ => some ("aa\n" ++ gray "bb" ++ "\ncc")

/-- Concrete frame pointing into the demo file system. -/
def frameDemo : Frame := { File := "/app/m.go", Line := 2, Function := "main.f" }

/-- Concrete frame whose file the demo file system cannot open. -/
def frameMissing : Frame := { File := "/app/x.go", Line := 2, Function := "main.f" }

/-- Concrete stack-walker output ending in Go runtime entry points. -/
def stackDemo : List RawFrame :=
  [{ file := "/app/m.go", line := 5, fn := some "main.main" },
   { file := "/go/proc.go", line := 250, fn := some "runtime.main" },
   { file := "/go/asm.s", line := 1, fn := some "runtime.goexit" }]

/-- Concrete file system fixture holding a one-line file whose line is
a single non-ASCII character (two UTF-8 bytes). -/
def fsAccent : String → Option (List String) :=
  fun p => if p = "/app/u.go" then some ["é"] else none

/-- Concrete frame pointing at the accented one-line file. -/
def frameAccent : Frame := { File := "/app/u.go", Line := 1, Function := "main.f" }

theorem digitChar_ne_esc : ∀ n, Nat.digitChar n ≠ '\x1b' := by
  intro n
  by_cases h : n < 16
  · interval_cases n <;> decide
  · unfold Nat.digitChar
    repeat rw [if_neg (by omega)]
    decide

theorem toDigitsCore_ne_esc (b : Nat) :
    ∀ (fuel n : Nat) (acc : List Char), (∀ c ∈ acc, c ≠ '\x1b') →
      ∀ c ∈ Nat.toDigitsCore b fuel n acc, c ≠ '\x1b' := by
  intro fuel
  induction fuel with
  | zero => intro n acc hacc c hc; simp [Nat.toDigitsCore] at hc; exact hacc c hc
  | succ f ih =>
    intro n acc hacc c hc
    simp only [Nat.toDigitsCore] at hc
    split at hc
    · rcases List.mem_cons.mp hc with h | h
      · subst h; exact digitChar_ne_esc _
      · exact hacc c h
    · refine ih _ _ ?_ c hc
      intro d hd
      rcases List.mem_cons.mp hd with h | h
      · subst h; exact digitChar_ne_esc _
      · exact hacc d h

theorem int_toString_ne_esc (n : Int) : '\x1b' ∉ (toString n).data := by
  intro hmem
  cases n with
  | ofNat m =>
    have h : '\x1b' ∈ (Nat.toDigits 10 m).asString.data := hmem
    rw [List.asString] at h
    exact toDigitsCore_ne_esc 10 _ _ [] (by simp) _ h rfl
  | negSucc m =>
    have h : '\x1b' ∈ ("-" ++ Nat.repr (m + 1)).data := hmem
    rw [String.data_append] at h
    rcases List.mem_append.mp h with h2 | h2
    · simp at h2
    · have h3 : '\x1b' ∈ (Nat.toDigits 10 (m + 1)).asString.data := h2
      rw [List.asString] at h3
      exact toDigitsCore_ne_esc 10 _ _ [] (by simp) _ h3 rfl

theorem ne_of_head {a b : String} {c d : Char} (ha : a.data.head? = some c)
    (hb : b.data.head? = some d) (hcd : c ≠ d) : a ≠ b := by
  intro h
  subst h
  rw [ha] at hb
  exact hcd (Option.some.inj hb)

/-- C7 — an error constructed without a cause reports exactly its own
message: `New(M).Error() == M` in the chain-aware variant (cause is nil,
so `Error()` returns `e.Msg`), and the legacy variant's `Error()` is the
bare message as well. -/
theorem new_message_exact (msg : String) (stack : List RawFrame) :
    goErrorStr (New msg stack) = msg ∧
      errorLegacyStr (newErrorLegacy msg stack) = msg := by
  constructor
  · rfl
  · rfl

/-- C6 — wrapping an absent error is the identity on absence: both
`Wrap nil msg` and `Wrapf nil format args` return nil at once, building
no Error node (the nil test precedes the `newError` call, so no frame
capture happens on this path). -/
theorem wrap_nil_is_nil (msg formatted : String) (stack : List RawFrame) :
    Wrap none msg stack = none ∧ Wrapf none formatted stack = none := by
  constructor
  · rfl
  · rfl

/-- C1 — wrapping any existing error yields a fresh node whose
`Unwrap()` is exactly the original error and whose chain-aware
`Error()` message is the new message, a ": " separator, and the
original's `Error()` message; the original node appears unchanged as
the `cause` of the new node (the embedding is purely functional and
`Wrap` only constructs, never mutates). -/
theorem wrap_unwrap_message (stack : List RawFrame) (m2 : String) (e1 : GoErr) :
    ∃ e2, Wrap (some e1) m2 stack = some e2 ∧
      goUnwrap e2 = some e1 ∧
      goErrorStr e2 = m2 ++ ": " ++ goErrorStr e1 := by
  refine ⟨.tracerr m2 (captureFrames stack) (some e1), rfl, rfl, ?_⟩
  cases e1 with
  | tracerr m f c => cases c <;> simp [goErrorStr, String.append_assoc]
  | foreign m c => simp [goErrorStr, String.append_assoc]

theorem captureFrames_eq (stack : List RawFrame) :
    captureFrames stack =
      (stack.takeWhile fun r => !(strStartsWith (resolveName r) "runtime.")).map toFrame := by
  induction stack with
  | nil => rfl
  | cons r rest ih =>
    cases hyp : strStartsWith (resolveName r) "runtime." <;>
      simp [captureFrames, List.takeWhile, hyp, toFrame, ih]

/-- C2 (amended) — in the chain-aware variant (tracerr2.go), the frames
captured by `newError` are exactly the walker's frames up to but not
including the first one whose resolved base name starts with
"runtime.", so no captured frame carries that marker. The legacy
variant in unnamed/part_001 has no such stop (see the counterexample). -/
theorem capture_stops_at_runtime (msg : String) (stack : List RawFrame) :
    errFrames (newError msg stack) =
      (stack.takeWhile fun r => !(strStartsWith (resolveName r) "runtime.")).map toFrame ∧
    ∀ f ∈ errFrames (newError msg stack), strStartsWith f.Function "runtime." = false := by
  refine ⟨captureFrames_eq stack, ?_⟩
  intro f hf
  rw [show errFrames (newError msg stack) = captureFrames stack from rfl,
    captureFrames_eq] at hf
  rcases List.mem_map.mp hf with ⟨r, hr, hfr⟩
  have hp := List.mem_takeWhile_imp hr
  subst hfr
  simpa [toFrame] using hp

theorem capture_stops_at_runtime_w :
    strStartsWith (toFrame { file := "/app/m.go", line := 5, fn := some "main.main" }).Function
      "runtime." = false :=
  (capture_stops_at_runtime "boom" stackDemo).2 _ (by decide)

/-- C2 counterexample — the claim quantifies over every invocation of
frame capture, including the `newError` of unnamed/part_001 (cited by
the claim), which appends every resolvable frame without testing for
the "runtime." marker: on a stack ending in the Go runtime entry
points, the captured sequence contains a frame whose function name
starts with "runtime.". -/
theorem capture_legacy_keeps_runtime_cex :
    ∃ f ∈ (newErrorLegacy "boom" stackDemo).Frames,
      strStartsWith f.Function "runtime." = true := by decide

theorem scanLines_eq (start endL : Int) :
    ∀ (ls : List String) (cur : Int),
      scanLines start endL cur ls =
        (ls.take (endL - cur).toNat).drop (start - cur - 1).toNat := by
  intro ls
  induction ls with
  | nil => intro cur; simp [scanLines]
  | cons l rest ih =>
    intro cur
    simp only [scanLines]
    by_cases hend : endL < cur + 1
    · rw [if_neg (by omega), if_pos hend,
        show (endL - cur).toNat = 0 from by omega]
      simp
    · rw [if_neg hend, ih (cur + 1),
        show (endL - cur).toNat = (endL - cur - 1).toNat + 1 from by omega,
        List.take_succ_cons]
      by_cases hstart : start ≤ cur + 1
      · rw [if_pos ⟨hstart, by omega⟩,
          show (start - (cur + 1) - 1).toNat = 0 from by omega,
          show (start - cur - 1).toNat = 0 from by omega,
          List.drop_zero, List.drop_zero, List.singleton_append,
          show endL - (cur + 1) = endL - cur - 1 from by omega]
      · rw [if_neg (by tauto),
          show (start - cur - 1).toNat = (start - (cur + 1) - 1).toNat + 1 from by omega,
          List.drop_succ_cons, List.nil_append,
          show endL - (cur + 1) = endL - cur - 1 from by omega]

/-- C3 (amended) — for every readable file, `readSourceContextLines`
returns `startLine = max(1, centerLine - radius)` together with exactly
those file lines whose 1-based index lies in
`[startLine, centerLine + radius]`, failing with a ReadError exactly
when that window contains no line of the file; on the 20-line demo file
with radius 1 it returns lines 9-11 at center 10 and lines 1-2 at
center 1, and it fails with a ReadError when `centerLine - radius`
exceeds the file's length (for `centerLine` between `length + 1` and
`length + radius` the window still contains trailing lines, so the call
succeeds — see the counterexample). -/
theorem readContext_window (L : List String) (c r : Int) :
    readSourceContextLines (some L) c r =
      (if (L.take (c + r).toNat).drop ((max (c - r) 1).toNat - 1) = []
       then .error "no lines found in range"
       else .ok ((L.take (c + r).toNat).drop ((max (c - r) 1).toNat - 1), max (c - r) 1)) ∧
    readSourceContextLines (some demoFile) 10 1 = .ok (["9", "10", "11"], 9) ∧
    readSourceContextLines (some demoFile) 1 1 = .ok (["1", "2"], 1) ∧
    ((L.length : Int) < c - r →
      readSourceContextLines (some L) c r = .error "no lines found in range") := by
  have hmain : readSourceContextLines (some L) c r =
      (if (L.take (c + r).toNat).drop ((max (c - r) 1).toNat - 1) = []
       then .error "no lines found in range"
       else .ok ((L.take (c + r).toNat).drop ((max (c - r) 1).toNat - 1), max (c - r) 1)) := by
    show (if scanLines (if c - r < 1 then 1 else c - r) (c + r) 0 L = [] then _ else _) = _
    rw [scanLines_eq, show (if c - r < 1 then 1 else c - r) = max (c - r) 1 from by
        split <;> omega]
    rw [show c + r - 0 = c + r from by omega,
      show (max (c - r) 1 - 0 - 1).toNat = (max (c - r) 1).toNat - 1 from by omega]
  refine ⟨hmain, rfl, rfl, ?_⟩
  intro hlen
  rw [hmain, if_pos]
  apply List.drop_eq_nil_of_le
  have hlt := List.length_take (c + r).toNat L
  omega

theorem readContext_window_w :
    readSourceContextLines (some demoFile) 22 1 = .error "no lines found in range" :=
  (readContext_window demoFile 22 1).2.2.2 (by decide)

/-- C3 counterexample — the claim says a center line beyond the file's
end yields a ReadError, but at `centerLine = 21`, `radius = 1` on the
20-line demo file the window `[20, 22]` still contains line 20, so the
reader succeeds with that line and `startLine = 20`. -/
theorem readContext_beyond_eof_cex :
    demoFile.length = 20 ∧
      readSourceContextLines (some demoFile) 21 1 = .ok (["20"], 20) := ⟨rfl, rfl⟩

theorem chainList_ne_nil : ∀ e : GoErr, chainList e ≠ [] := by
  intro e
  cases e with
  | tracerr m f c => cases c <;> simp [chainList]
  | foreign m c => cases c <;> simp [chainList]

theorem chainLength_pos : ∀ e : GoErr, 1 ≤ chainLength e := by
  intro e
  cases e with
  | tracerr m f c => cases c <;> simp [chainLength]
  | foreign m c => cases c <;> simp [chainLength]

theorem chainList_length : ∀ e : GoErr, (chainList e).length = chainLength e
  | .tracerr _ _ none => rfl
  | .tracerr m f (some c) => by
    show (GoErr.tracerr m f (some c) :: chainList c).length = 1 + chainLength c
    rw [List.length_cons, chainList_length c, Nat.add_comm]
  | .foreign _ none => rfl
  | .foreign m (some c) => by
    show (GoErr.foreign m (some c) :: chainList c).length = 1 + chainLength c
    rw [List.length_cons, chainList_length c, Nat.add_comm]

theorem FprintAux_false_eq (fs : String → Option (List String)) (hl : String → Option String)
    (e : GoErr) : FprintAux fs hl e false = sepChunk :: FprintAux fs hl e true := by
  cases e with
  | tracerr m f c => cases c <;> rfl
  | foreign m c => cases c <;> rfl

theorem FprintAux_true_eq (fs : String → Option (List String)) (hl : String → Option String) :
    ∀ e, FprintAux fs hl e true = sepJoin sepChunk ((chainList e).map (renderNode fs hl))
  | .tracerr m f none => by simp [FprintAux, chainList, sepJoin]
  | .foreign m none => by simp [FprintAux, chainList, sepJoin]
  | .tracerr m f (some c) => by
    have ih := FprintAux_true_eq fs hl c
    obtain ⟨y, t, hyt⟩ := List.exists_cons_of_ne_nil (chainList_ne_nil c)
    simp only [FprintAux, if_pos, FprintAux_false_eq, ih, hyt,
      show chainList (.tracerr m f (some c)) = .tracerr m f (some c) :: chainList c from rfl,
      List.map_cons, List.nil_append]
    simp [sepJoin]
  | .foreign m (some c) => by
    have ih := FprintAux_true_eq fs hl c
    obtain ⟨y, t, hyt⟩ := List.exists_cons_of_ne_nil (chainList_ne_nil c)
    simp only [FprintAux, if_pos, FprintAux_false_eq, ih, hyt,
      show chainList (.foreign m (some c)) = .foreign m (some c) :: chainList c from rfl,
      List.map_cons, List.nil_append]
    simp [sepJoin]

theorem gutterChunk_head (w : Nat) (n : Int) (b : Bool) (h : String) :
    (gutterChunk w n b h).data.head? = some '\x1b' := by
  cases b <;> rfl

theorem gutterLoop_chunk_shape (numLines : Nat) (startLine errIdx : Int) (width : Nat) :
    ∀ (hls : List String) (i : Nat) (chunk : String),
      chunk ∈ gutterLoop numLines startLine errIdx width i hls →
      ∃ w n b h, chunk = gutterChunk w n b h := by
  intro hls
  induction hls with
  | nil => intro i chunk hc; simp [gutterLoop] at hc
  | cons x rest ih =>
    intro i chunk hc
    simp only [gutterLoop] at hc
    rcases List.mem_append.mp hc with h1 | h1
    · by_cases hi : i < numLines
      · rw [if_pos hi] at h1
        rcases List.mem_singleton.mp h1 with rfl
        exact ⟨_, _, _, _, rfl⟩
      · rw [if_neg hi] at h1; simp at h1
    · exact ih (i + 1) chunk h1

theorem printFrame_chunk_ne_sep (fs : String → Option (List String))
    (hl : String → Option String) (frame : Frame) :
    ∀ chunk ∈ printFrame fs hl frame, chunk ≠ sepChunk := by
  intro chunk hc
  unfold printFrame at hc
  have hsep : sepChunk.data.head? = some '\n' := rfl
  split at hc
  · rcases List.mem_cons.mp hc with rfl | h1
    · exact ne_of_head rfl hsep (by decide)
    · rcases List.mem_singleton.mp h1 with rfl
      exact ne_of_head rfl hsep (by decide)
  · rcases List.mem_cons.mp hc with rfl | h1
    · exact ne_of_head rfl hsep (by decide)
    · obtain ⟨w, n, b, h, rfl⟩ := gutterLoop_chunk_shape _ _ _ _ _ _ _ h1
      exact ne_of_head (gutterChunk_head w n b h) hsep (by decide)

theorem renderNode_ne_sep (fs : String → Option (List String)) (hl : String → Option String)
    (e : GoErr) : ∀ chunk ∈ renderNode fs hl e, chunk ≠ sepChunk := by
  intro chunk hc
  have hsep : sepChunk.data.head? = some '\n' := rfl
  cases e with
  | tracerr m f c =>
    rcases List.mem_cons.mp hc with rfl | h1
    · exact ne_of_head rfl hsep (by decide)
    · rcases List.mem_flatten.mp h1 with ⟨l, hl1, hl2⟩
      rcases List.mem_map.mp hl1 with ⟨frame, _, rfl⟩
      exact printFrame_chunk_ne_sep fs hl frame chunk hl2
  | foreign m c =>
    rcases List.mem_singleton.mp hc with rfl
    exact ne_of_head rfl hsep (by decide)

theorem renderNode_count_sep (fs : String → Option (List String)) (hl : String → Option String)
    (e : GoErr) : (renderNode fs hl e).count sepChunk = 0 :=
  List.count_eq_zero.mpr (fun hmem => renderNode_ne_sep fs hl e sepChunk hmem rfl)

theorem FprintAux_count_sep (fs : String → Option (List String)) (hl : String → Option String) :
    ∀ e : GoErr, (FprintAux fs hl e true).count sepChunk = chainLength e - 1 ∧
      (FprintAux fs hl e false).count sepChunk = chainLength e
  | .tracerr m f none => by
    constructor
    · simp [FprintAux, List.count_append, renderNode_count_sep, chainLength]
    · rw [FprintAux_false_eq]
      simp [FprintAux, List.count_append, List.count_cons, renderNode_count_sep, chainLength]
  | .foreign m none => by
    constructor
    · simp [FprintAux, List.count_append, renderNode_count_sep, chainLength]
    · rw [FprintAux_false_eq]
      simp [FprintAux, List.count_append, List.count_cons, renderNode_count_sep, chainLength]
  | .tracerr m f (some c) => by
    have ih := FprintAux_count_sep fs hl c
    have htrue : (FprintAux fs hl (.tracerr m f (some c)) true).count sepChunk =
        chainLength (.tracerr m f (some c)) - 1 := by
      simp only [FprintAux, if_pos, List.nil_append, List.count_append]
      rw [renderNode_count_sep, ih.2]
      simp [chainLength]
    refine ⟨htrue, ?_⟩
    rw [FprintAux_false_eq]
    simp only [List.count_cons, htrue]
    have := chainLength_pos c
    simp [chainLength]
    omega
  | .foreign m (some c) => by
    have ih := FprintAux_count_sep fs hl c
    have htrue : (FprintAux fs hl (.foreign m (some c)) true).count sepChunk =
        chainLength (.foreign m (some c)) - 1 := by
      simp only [FprintAux, if_pos, List.nil_append, List.count_append]
      rw [renderNode_count_sep, ih.2]
      simp [chainLength]
    refine ⟨htrue, ?_⟩
    rw [FprintAux_false_eq]
    simp only [List.count_cons, htrue]
    have := chainLength_pos c
    simp [chainLength]
    omega

/-- C4 — the chain-aware renderer walks the cause chain from the
newest wrap to the oldest cause (the order of `chainList`), writing the
"Caused by:" separator chunk exactly once before each node after the
first: the output is the per-node renderings joined by the separator,
and the separator occurs exactly `n - 1` times for a chain of `n`
nodes. -/
theorem fprint_caused_by_count (fs : String → Option (List String))
    (hl : String → Option String) (e : GoErr) :
    Fprint fs hl e = sepJoin sepChunk ((chainList e).map (renderNode fs hl)) ∧
      (Fprint fs hl e).count sepChunk = chainLength e - 1 ∧
      (chainList e).length = chainLength e :=
  ⟨FprintAux_true_eq fs hl e, (FprintAux_count_sep fs hl e).1, chainList_length e⟩

theorem renderNode_length_pos (fs : String → Option (List String))
    (hl : String → Option String) (e : GoErr) : 1 ≤ (renderNode fs hl e).length := by
  cases e <;> simp [renderNode]

theorem FprintAux_length (fs : String → Option (List String)) (hl : String → Option String) :
    ∀ (e : GoErr) (b : Bool), chainLength e ≤ (FprintAux fs hl e b).length
  | .tracerr m f none, b => by
    have h1 := renderNode_length_pos fs hl (.tracerr m f none)
    cases b <;> (simp [FprintAux, chainLength]; try exact h1)
  | .foreign m none, b => by
    have h1 := renderNode_length_pos fs hl (.foreign m none)
    cases b <;> (simp [FprintAux, chainLength]; try exact h1)
  | .tracerr m f (some c), b => by
    have ih := FprintAux_length fs hl c false
    have h1 := renderNode_length_pos fs hl (.tracerr m f (some c))
    cases b <;> (simp [FprintAux, chainLength]; omega)
  | .foreign m (some c), b => by
    have ih := FprintAux_length fs hl c false
    have h1 := renderNode_length_pos fs hl (.foreign m (some c))
    cases b <;> (simp [FprintAux, chainLength]; omega)

/-- C5 — rendering is failure-absorbing: when the per-frame source read
fails, `printFrame` emits exactly the frame header followed by the
muted placeholder line and nothing else (the failure never escapes),
and the chain walk always produces a full report, at least one written
chunk per chain node, whatever the file system or highlighting engine
do. In the embedding `Fprint` is a total function, so rendering cannot
raise. -/
theorem render_absorbs_read_failure :
    (∀ (fs : String → Option (List String)) (hl : String → Option String) (frame : Frame)
        (msg : String),
      readSourceContextLines (fs frame.File) frame.Line 1 = .error msg →
      printFrame fs hl frame = [frameHeader frame, placeholderChunk]) ∧
    ∀ (fs : String → Option (List String)) (hl : String → Option String) (e : GoErr),
      chainLength e ≤ (Fprint fs hl e).length := by
  constructor
  · intro fs hl frame msg h
    unfold printFrame
    rw [h]
  · intro fs hl e
    exact FprintAux_length fs hl e true

theorem render_absorbs_read_failure_w :
    printFrame fsDemo hlNone frameMissing = [frameHeader frameMissing, placeholderChunk] :=
  render_absorbs_read_failure.1 fsDemo hlNone frameMissing "open failed" rfl

theorem gutterLoop_length (numLines : Nat) (startLine errIdx : Int) (width : Nat) :
    ∀ (hls : List String) (i : Nat),
      (gutterLoop numLines startLine errIdx width i hls).length =
        min hls.length (numLines - i) := by
  intro hls
  induction hls with
  | nil => intro i; simp [gutterLoop]
  | cons x rest ih =>
    intro i
    simp only [gutterLoop, List.length_append, ih (i + 1)]
    by_cases hi : i < numLines
    · rw [if_pos hi]
      simp only [List.length_singleton, List.length_cons, List.length_nil]
      omega
    · rw [if_neg hi]
      simp only [List.length_nil, List.length_cons]
      omega

/-- C10 — the gutter print loop skips every highlighted line whose
index is at or beyond the count of unhighlighted context lines, so the
number of gutter-prefixed chunks is the minimum of the two line counts,
and a frame's whole output never exceeds one header plus one chunk per
context line: surplus lines produced by the highlighting engine are
dropped, and the original line list is never indexed out of bounds. -/
theorem gutter_lines_bounded :
    (∀ (numLines : Nat) (startLine errIdx : Int) (width : Nat) (hls : List String),
      (gutterLoop numLines startLine errIdx width 0 hls).length = min hls.length numLines) ∧
    ∀ (fs : String → Option (List String)) (hl : String → Option String) (frame : Frame)
        (lines : List String) (startLine : Int),
      readSourceContextLines (fs frame.File) frame.Line 1 = .ok (lines, startLine) →
      (printFrame fs hl frame).length ≤ 1 + lines.length := by
  constructor
  · intro numLines startLine errIdx width hls
    rw [gutterLoop_length numLines startLine errIdx width hls 0]
    omega
  · intro fs hl frame lines startLine h
    unfold printFrame
    rw [h]
    simp only [List.length_cons, gutterLoop_length]
    omega

theorem gutter_lines_bounded_w :
    (printFrame fsDemo hlMany frameDemo).length ≤ 1 + (["aa", "bb", "cc"] : List String).length :=
  gutter_lines_bounded.2 fsDemo hlMany frameDemo ["aa", "bb", "cc"] 1 rfl

theorem printFrameLegacy_ok (fs : String → Option (List String)) (hl : String → Option String)
    (frame : Frame) (lines : List String) (startLine : Int)
    (h : readSourceContextLines (fs frame.File) frame.Line 1 = .ok (lines, startLine)) :
    printFrameLegacy fs hl frame =
      frameHeader frame ::
        gutterLoopLegacy lines startLine (frame.Line - startLine)
          (toString (startLine + (lines.length : Int) - 1)).length 0
          (goSplitLines (match hl (joinLines lines) with
            | some hh => hh
            | none => joinLines lines)) := by
  unfold printFrameLegacy
  rw [h]

theorem printFrame_ok (fs : String → Option (List String)) (hl : String → Option String)
    (frame : Frame) (lines : List String) (startLine : Int)
    (h : readSourceContextLines (fs frame.File) frame.Line 1 = .ok (lines, startLine)) :
    printFrame fs hl frame =
      frameHeader frame ::
        gutterLoop lines.length startLine (frame.Line - startLine)
          (toString (startLine + (lines.length : Int) - 1)).length 0
          (goSplitLines (match hl (joinLines lines) with
            | some hh => hh
            | none => joinLines lines)) := by
  unfold printFrame
  rw [h]

theorem caretChunk_count (w : Nat) (s : String) :
    (caretChunk w s).data.count '^' = s.utf8ByteSize := by
  simp [caretChunk, boldGray, red, colorBoldGray, colorRed, colorReset,
    String.data_append, List.count_append, List.count_replicate]

theorem gutterLoopLegacy_caret_mem (lines : List String) (startLine errIdx : Int) (width : Nat) :
    ∀ (hls : List String) (i j : Nat) (hj : i + j < lines.length),
      j < hls.length → ((i + j : Nat) : Int) = errIdx →
      caretChunk width (lines.get ⟨i + j, hj⟩) ∈
        gutterLoopLegacy lines startLine errIdx width i hls := by
  intro hls
  induction hls with
  | nil => intro i j hj hlen heq; simp at hlen
  | cons x rest ih =>
    intro i j hj hlen heq
    cases j with
    | zero =>
      simp only [Nat.add_zero] at hj heq ⊢
      simp only [gutterLoopLegacy]
      rw [dif_pos hj]
      have hbeq : ((i : Int) == errIdx) = true := by
        rw [beq_iff_eq]; exact heq
      rw [hbeq]
      simp
    | succ k =>
      simp only [gutterLoopLegacy]
      apply List.mem_append_right
      have hidx : (⟨i + (k + 1), hj⟩ : Fin lines.length) = ⟨(i + 1) + k, by omega⟩ := by
        apply Fin.ext
        simp
        omega
      rw [hidx]
      exact ih (i + 1) k (by omega) (by simpa using hlen) (by push_cast; push_cast at heq; omega)

/-- C8 (amended) — in the legacy single-node variant, whenever the
context read succeeds and the highlighted block reaches the error
line's index, the emphasized source line is followed by a caret row
whose number of caret characters equals the UTF-8 BYTE count of the
corresponding unhighlighted source line (Go `len` on a string counts
bytes); this equals the character count only for ASCII lines — see the
counterexample for a multi-byte line. -/
theorem caret_matches_byte_length (fs : String → Option (List String))
    (hl : String → Option String) (frame : Frame) (lines : List String) (startLine : Int)
    (hread : readSourceContextLines (fs frame.File) frame.Line 1 = .ok (lines, startLine))
    (j : Nat) (hj : j < lines.length) (heq : (j : Int) = frame.Line - startLine)
    (hhl : j < (goSplitLines (match hl (joinLines lines) with
      | some hh => hh
      | none => joinLines lines)).length) :
    caretChunk (toString (startLine + (lines.length : Int) - 1)).length (lines.get ⟨j, hj⟩) ∈
        printFrameLegacy fs hl frame ∧
      (caretChunk (toString (startLine + (lines.length : Int) - 1)).length
          (lines.get ⟨j, hj⟩)).data.count '^' = (lines.get ⟨j, hj⟩).utf8ByteSize := by
  refine ⟨?_, caretChunk_count _ _⟩
  rw [printFrameLegacy_ok fs hl frame lines startLine hread]
  apply List.mem_cons_of_mem
  have hidx : (⟨j, hj⟩ : Fin lines.length) = ⟨0 + j, by omega⟩ := by
    apply Fin.ext
    simp
  rw [hidx]
  exact gutterLoopLegacy_caret_mem lines startLine (frame.Line - startLine) _ _ 0 j
    (by omega) hhl (by simpa using heq)

theorem caret_matches_byte_length_w :
    caretChunk (toString ((1 : Int) + ((["aa", "bb", "cc"] : List String).length : Int) - 1)).length
        ((["aa", "bb", "cc"] : List String).get ⟨1, by decide⟩) ∈
        printFrameLegacy fsDemo hlNone frameDemo ∧
      (caretChunk (toString ((1 : Int) + ((["aa", "bb", "cc"] : List String).length : Int) - 1)).length
          ((["aa", "bb", "cc"] : List String).get ⟨1, by decide⟩)).data.count '^' =
        ((["aa", "bb", "cc"] : List String).get ⟨1, by decide⟩).utf8ByteSize :=
  caret_matches_byte_length fsDemo hlNone frameDemo ["aa", "bb", "cc"] 1 rfl 1
    (by decide) (by decide) (by decide)

/-- C8 counterexample — on a one-line file whose line is the single
character "é" (one character, two UTF-8 bytes), the legacy renderer
emits a caret row of 2 carets while the character count of the
unhighlighted line is 1: the caret count follows Go's byte-counting
`len`, not the character count the claim states. -/
theorem caret_char_count_cex :
    printFrameLegacy fsAccent hlNone frameAccent =
        [frameHeader frameAccent, gutterChunk 1 1 true "é", caretChunk 1 "é"] ∧
      (caretChunk 1 "é").data.count '^' = 2 ∧ ("é" : String).length = 1 :=
  ⟨rfl, by decide, by decide⟩

theorem string_mk_data (s : String) : String.mk s.data = s := by
  cases s
  rfl

theorem stripAnsiAux_cons_ne (c : Char) (l : List Char) (h : c ≠ '\x1b') :
    stripAnsiAux false (c :: l) = c :: stripAnsiAux false l := by
  cases l with
  | nil => simp [stripAnsiAux, h]
  | cons d rest =>
    by_cases hd : d = '['
    · subst hd
      simp [stripAnsiAux, h]
    · simp [stripAnsiAux, h, hd]

theorem strip_no_esc_append (a t : List Char) (h : '\x1b' ∉ a) :
    stripAnsiAux false (a ++ t) = a ++ stripAnsiAux false t := by
  induction a with
  | nil => rfl
  | cons c a2 ih =>
    rw [List.cons_append, stripAnsiAux_cons_ne c (a2 ++ t) (by simp at h; tauto),
      ih (by simp at h; tauto), List.cons_append]

theorem strip_no_esc (a : List Char) (h : '\x1b' ∉ a) :
    stripAnsiAux false a = a := by
  have h2 := strip_no_esc_append a [] h
  rw [List.append_nil] at h2
  rw [h2, show stripAnsiAux false ([] : List Char) = [] from rfl, List.append_nil]

theorem ansiClosed_of_not_esc (s : String) (h : '\x1b' ∉ s.data) : ansiClosed s := by
  intro t
  rw [strip_no_esc_append s.data t h, strip_no_esc s.data h]

theorem ansiClosed_append (a b : String) (ha : ansiClosed a) (hb : ansiClosed b) :
    ansiClosed (a ++ b) := by
  intro t
  rw [String.data_append, List.append_assoc, ha (b.data ++ t), hb t, ha b.data,
    List.append_assoc]

theorem ansiClosed_colorGray : ansiClosed colorGray := fun _ => rfl

theorem ansiClosed_colorBoldGray : ansiClosed colorBoldGray := fun _ => rfl

theorem ansiClosed_colorReset : ansiClosed colorReset := fun _ => rfl

theorem ansiClosed_gray (s : String) (h : '\x1b' ∉ s.data) : ansiClosed (gray s) :=
  ansiClosed_append colorGray (s ++ colorReset) ansiClosed_colorGray
    (ansiClosed_append s colorReset (ansiClosed_of_not_esc s h) ansiClosed_colorReset)

theorem ansiClosed_boldGray (s : String) (h : '\x1b' ∉ s.data) : ansiClosed (boldGray s) :=
  ansiClosed_append colorBoldGray (s ++ colorReset) ansiClosed_colorBoldGray
    (ansiClosed_append s colorReset (ansiClosed_of_not_esc s h) ansiClosed_colorReset)

theorem gutterText_no_esc (w : Nat) (n : Int) : '\x1b' ∉ (gutterText w n).data := by
  intro hmem
  simp only [gutterText, padLeft, String.data_append, List.mem_append] at hmem
  rcases hmem with (h | (h | h)) | h
  · simp at h
  · exact absurd (List.eq_of_mem_replicate h) (by decide)
  · exact int_toString_ne_esc n h
  · simp at h

theorem strip_chunk_congr (G h1 h2 : String) (hG : ansiClosed G) (hc1 : ansiClosed h1)
    (hc2 : ansiClosed h2) (heq : stripAnsiStr h1 = stripAnsiStr h2) :
    stripAnsiStr (G ++ h1 ++ "\n") = stripAnsiStr (G ++ h2 ++ "\n") := by
  have hdata : stripAnsiAux false h1.data = stripAnsiAux false h2.data :=
    congrArg String.data heq
  unfold stripAnsiStr
  rw [String.data_append, String.data_append, String.data_append, String.data_append,
    List.append_assoc G.data h1.data _, List.append_assoc G.data h2.data _,
    hG (h1.data ++ ("\n" : String).data), hG (h2.data ++ ("\n" : String).data),
    hc1 ("\n" : String).data, hc2 ("\n" : String).data, hdata]

theorem strip_gutterChunk_congr (w : Nat) (n : Int) (b : Bool) (h1 h2 : String)
    (hc1 : ansiClosed h1) (hc2 : ansiClosed h2)
    (heq : stripAnsiStr h1 = stripAnsiStr h2) :
    stripAnsiStr (gutterChunk w n b h1) = stripAnsiStr (gutterChunk w n b h2) := by
  cases b
  · exact strip_chunk_congr (gray (gutterText w n)) h1 h2
      (ansiClosed_gray _ (gutterText_no_esc w n)) hc1 hc2 heq
  · exact strip_chunk_congr (boldGray (gutterText w n)) h1 h2
      (ansiClosed_boldGray _ (gutterText_no_esc w n)) hc1 hc2 heq

theorem splitNl_no_nl (cs : List Char) (h : '\n' ∉ cs) : splitNl cs = [cs] := by
  induction cs with
  | nil => rfl
  | cons c rest ih =>
    have hc : ¬ c = '\n' := by simp at h; tauto
    rw [splitNl, if_neg hc, ih (by simp at h; tauto)]

theorem splitNl_append_nl (a b : List Char) (h : '\n' ∉ a) :
    splitNl (a ++ '\n' :: b) = a :: splitNl b := by
  induction a with
  | nil => simp [splitNl]
  | cons c a2 ih =>
    have hc : ¬ c = '\n' := by simp at h; tauto
    rw [List.cons_append, splitNl, if_neg hc, ih (by simp at h; tauto)]

theorem goSplitLines_joinLines :
    ∀ (lines : List String), lines ≠ [] → (∀ l ∈ lines, '\n' ∉ l.data) →
      goSplitLines (joinLines lines) = lines
  | [], h, _ => absurd rfl h
  | [l], _, hnl => by
    rw [show joinLines [l] = l from rfl]
    unfold goSplitLines
    rw [splitNl_no_nl l.data (hnl l (by simp))]
    simp [string_mk_data]
  | l :: r :: rs, _, hnl => by
    have ih := goSplitLines_joinLines (r :: rs) (by simp)
      (fun x hx => hnl x (List.mem_cons_of_mem l hx))
    rw [show joinLines (l :: r :: rs) = l ++ "\n" ++ joinLines (r :: rs) from rfl]
    unfold goSplitLines
    rw [String.data_append, String.data_append, List.append_assoc,
      show ("\n" : String).data ++ (joinLines (r :: rs)).data =
        '\n' :: (joinLines (r :: rs)).data from rfl,
      splitNl_append_nl l.data (joinLines (r :: rs)).data (hnl l (by simp)),
      List.map_cons, string_mk_data]
    unfold goSplitLines at ih
    rw [ih]

theorem readContext_ok_ne_nil (file : Option (List String)) (c r : Int)
    (lines : List String) (s : Int)
    (h : readSourceContextLines file c r = .ok (lines, s)) : lines ≠ [] := by
  cases file with
  | none => simp [readSourceContextLines] at h
  | some L =>
    have h2 : (if scanLines (if c - r < 1 then 1 else c - r) (c + r) 0 L = []
        then (Except.error "no lines found in range" : Except String (List String × Int))
        else .ok (scanLines (if c - r < 1 then 1 else c - r) (c + r) 0 L,
          if c - r < 1 then 1 else c - r)) = .ok (lines, s) := h
    by_cases hsc : scanLines (if c - r < 1 then 1 else c - r) (c + r) 0 L = []
    · rw [if_pos hsc] at h2
      simp at h2
    · rw [if_neg hsc] at h2
      simp only [Except.ok.injEq, Prod.mk.injEq] at h2
      exact fun hl => hsc (h2.1.trans hl)

theorem gutterLoop_map_strip (numLines : Nat) (startLine errIdx : Int) (width : Nat) :
    ∀ (A B : List String) (i : Nat), A.length = B.length →
      (∀ (j : Nat) (hA : j < A.length) (hB : j < B.length),
        ansiClosed (A.get ⟨j, hA⟩) ∧ ansiClosed (B.get ⟨j, hB⟩) ∧
          stripAnsiStr (A.get ⟨j, hA⟩) = stripAnsiStr (B.get ⟨j, hB⟩)) →
      (gutterLoop numLines startLine errIdx width i A).map stripAnsiStr =
        (gutterLoop numLines startLine errIdx width i B).map stripAnsiStr := by
  intro A
  induction A with
  | nil =>
    intro B i hlen hpt
    cases B with
    | nil => rfl
    | cons b B2 => simp at hlen
  | cons a A2 ih =>
    intro B i hlen hpt
    cases B with
    | nil => simp at hlen
    | cons b B2 =>
      simp only [gutterLoop, List.map_append]
      congr 1
      · by_cases hi : i < numLines
        · rw [if_pos hi, if_pos hi, List.map_singleton, List.map_singleton]
          have h0 := hpt 0 (by simp) (by simp)
          exact congrArg (fun x => [x])
            (strip_gutterChunk_congr width (startLine + i) ((i : Int) == errIdx) a b
              h0.1 h0.2.1 h0.2.2)
        · rw [if_neg hi, if_neg hi]
      · refine ih B2 (i + 1) (by simpa using hlen) ?_
        intro j hA hB
        have hj := hpt (j + 1) (by simpa using Nat.succ_lt_succ hA)
          (by simpa using Nat.succ_lt_succ hB)
        simpa using hj

/-- C9 — when the highlighting engine fails on a context block, the
renderer falls back to the verbatim unhighlighted block, so the
rendered chunks stripped of ANSI color sequences are identical to those
of a run whose engine succeeds and only adds color codes (same line
count, each highlighted line stripping back to its source line, and
only complete escape sequences); in the embedding the fallback is a
total function of the inputs, so the engine failure reaches no caller. -/
theorem highlight_fallback_strip (fs : String → Option (List String))
    (hlF hlS : String → Option String) (frame : Frame) (lines : List String)
    (startLine : Int) (hlOut : String)
    (hread : readSourceContextLines (fs frame.File) frame.Line 1 = .ok (lines, startLine))
    (hnl : ∀ l ∈ lines, '\n' ∉ l.data ∧ '\x1b' ∉ l.data)
    (hfail : hlF (joinLines lines) = none)
    (hsucc : hlS (joinLines lines) = some hlOut)
    (hlen : (goSplitLines hlOut).length = lines.length)
    (hstrip : ∀ (j : Nat) (h1 : j < (goSplitLines hlOut).length) (h2 : j < lines.length),
      stripAnsiStr ((goSplitLines hlOut).get ⟨j, h1⟩) = lines.get ⟨j, h2⟩)
    (hclosed : ∀ l ∈ goSplitLines hlOut, ansiClosed l) :
    (printFrame fs hlF frame).map stripAnsiStr =
      (printFrame fs hlS frame).map stripAnsiStr := by
  rw [printFrame_ok fs hlF frame lines startLine hread,
    printFrame_ok fs hlS frame lines startLine hread, hfail, hsucc]
  have hsplit : goSplitLines (joinLines lines) = lines :=
    goSplitLines_joinLines lines (readContext_ok_ne_nil _ _ _ _ _ hread)
      (fun l hl => (hnl l hl).1)
  rw [List.map_cons, List.map_cons, hsplit]
  congr 1
  refine gutterLoop_map_strip lines.length startLine (frame.Line - startLine)
    (toString (startLine + (lines.length : Int) - 1)).length lines (goSplitLines hlOut) 0
    hlen.symm ?_
  intro j hA hB
  have hne := hnl (lines.get ⟨j, hA⟩) (lines.get_mem _ _)
  refine ⟨ansiClosed_of_not_esc _ hne.2, hclosed _ ((goSplitLines hlOut).get_mem _ _), ?_⟩
  rw [hstrip j hB hA]
  unfold stripAnsiStr
  rw [strip_no_esc _ hne.2, string_mk_data]

theorem highlight_fallback_strip_w :
    (printFrame fsDemo hlNone frameDemo).map stripAnsiStr =
      (printFrame fsDemo hlColor frameDemo).map stripAnsiStr :=
  highlight_fallback_strip fsDemo hlNone hlColor frameDemo ["aa", "bb", "cc"] 1
    ("aa\n" ++ gray "bb" ++ "\ncc") rfl (by decide) rfl rfl (by decide)
    (fun j h1 h2 => by
      have h3 : j < 3 := h2
      interval_cases j <;> rfl)
    (by
      intro l hml
      rw [show goSplitLines ("aa\n" ++ gray "bb" ++ "\ncc") = ["aa", gray "bb", "cc"]
        from by decide] at hml
      fin_cases hml
      · exact ansiClosed_of_not_esc "aa" (by decide)
      · exact ansiClosed_gray "bb" (by decide)
      · exact ansiClosed_of_not_esc "cc" (by decide))

end Tracerr
